import Mathlib

/-!
Verification of the rosbag2_py sequential-reader bindings
(`src/rosbag2_py/src/rosbag2_py/_reader.cpp`) together with a model of the
underlying `rosbag2_cpp` reader stack that the bindings drive.

The pybind11 binding code (the `Reader<T>` template and
`get_registered_readers`) is embedded directly from the source.  The
`rosbag2_cpp::Reader` / `SequentialReader` / `SequentialCompressionReader`
implementations are not part of this repository's sources, so their
behaviour (the open/iterate state machine, filtering, decompression) is
modelled from the specification, as noted on each definition.
-/

set_option maxHeartbeats 1000000

namespace Rosbag2Py

/-- A serialized bag message as surfaced by the storage backend:
`rosbag2_storage::SerializedBagMessage` carries a topic name, a
`rcutils_uint8_array_t` (a byte buffer of which only the first
`buffer_length` bytes are payload), and a nanosecond timestamp.
The `compressed` flag models the backend-side "compressed or not"
signal that the compression decorator consults (opaque metadata in the
spec's words). -/
structure SerializedBagMessage where
  topic_name : String
  buffer : List Nat
  buffer_length : Nat
  time_stamp : Int
  compressed : Bool
deriving DecidableEq, Repr

/-- The byte sequence the binding's `read_next` builds from a record:
`std::string serialized_data(rcutils_data.buffer, rcutils_data.buffer +
rcutils_data.buffer_length)` — exactly the first `buffer_length` bytes of
the buffer (embedded zero bytes included, since the range constructor does
not stop at NUL). -/
def payloadOf (m : SerializedBagMessage) : List Nat :=
  m.buffer.take m.buffer_length

/-- `rosbag2_storage::TopicMetadata`: name, type string and serialization
format. -/
structure TopicMetadata where
  name : String
  type : String
  serialization_format : String
deriving DecidableEq, Repr

/-- `rosbag2_storage::StorageFilter`: a list of allowed topic names; the
empty list means all topics pass. -/
structure StorageFilter where
  topics : List String
deriving DecidableEq, Repr

/-- Modelled from the spec: the filter predicate applied during iteration
(§4.4) — a record passes when the allowed set is empty or contains the
record's topic name. -/
def matchesFilter (f : StorageFilter) (m : SerializedBagMessage) : Bool :=
  f.topics.isEmpty || f.topics.contains m.topic_name

/-- The resolved bag a successful `open` connects to: the backend's topic
index and its record sequence. -/
structure Bag where
  topics : List TopicMetadata
  records : List SerializedBagMessage
deriving DecidableEq, Repr

/-- Errors of the reader stack's error taxonomy (§7). -/
inductive ReaderError where
  | invalidState
  | endOfStream
  | dataCorruption
deriving DecidableEq, Repr

/-- Modelled from the spec: the state of an opened sequential reader
(§4.2) — the topic index fixed at open, the original log, the records not
yet consumed, and the active filter. -/
structure OpenedReader where
  topics : List TopicMetadata
  log : List SerializedBagMessage
  remaining : List SerializedBagMessage
  filter : StorageFilter
deriving DecidableEq, Repr

/-- Modelled from the spec: scan forward for the first record passing the
filter, returning it with the records after it (§4.4 skip loop). -/
def nextMatching (f : StorageFilter) :
    List SerializedBagMessage →
    Option (SerializedBagMessage × List SerializedBagMessage)
  | [] => none
  | m :: rest =>
    if matchesFilter f m then some (m, rest) else nextMatching f rest

/-- Modelled from the spec: `has_next` accounts for filtering — it reports
whether some remaining record passes the active filter (§4.2). -/
def OpenedReader.hasNext (s : OpenedReader) : Bool :=
  (nextMatching s.filter s.remaining).isSome

/-- Modelled from the spec: `read_next` skips non-matching records and
returns the first matching one, or fails with an end-of-stream error when
the backend is exhausted (§4.2, §4.4). -/
def OpenedReader.readNext (s : OpenedReader) :
    Except ReaderError (SerializedBagMessage × OpenedReader) :=
  match nextMatching s.filter s.remaining with
  | none => .error .endOfStream
  | some (m, rest) => .ok (m, { s with remaining := rest })

/-- Modelled from the spec: `get_all_topics_and_types` returns the full
topic index established at open (§4.2). -/
def OpenedReader.getAllTopicsAndTypes (s : OpenedReader) :
    List TopicMetadata :=
  s.topics

/-- Modelled from the spec: `set_filter` replaces the active filter,
affecting only subsequent reads (§4.2). -/
def OpenedReader.setFilter (s : OpenedReader) (f : StorageFilter) :
    OpenedReader :=
  { s with filter := f }

/-- Modelled from the spec: `reset_filter` installs the default (all-pass)
filter (§4.2). -/
def OpenedReader.resetFilter (s : OpenedReader) : OpenedReader :=
  { s with filter := ⟨[]⟩ }

/-- Modelled from the spec: the state of a freshly opened reader — cursor
at the start of the log, all-pass filter. -/
def openReader (bag : Bag) : OpenedReader :=
  ⟨bag.topics, bag.records, bag.records, ⟨[]⟩⟩

/-- Fuel-indexed full iteration: repeated `readNext` collecting the
returned records until an error stops the loop. -/
def readAllFuel : Nat → OpenedReader → List SerializedBagMessage
  | 0, _ => []
  | n + 1, s =>
    match s.readNext with
    | .error _ => []
    | .ok (m, s') => m :: readAllFuel n s'

/-- Full iteration of an opened reader: `readNext` to exhaustion (the
remaining record count bounds the number of successful reads). -/
def OpenedReader.readAll (s : OpenedReader) : List SerializedBagMessage :=
  readAllFuel s.remaining.length s

lemma nextMatching_eq_none {f : StorageFilter}
    {l : List SerializedBagMessage} (h : nextMatching f l = none) :
    l.filter (matchesFilter f) = [] := by
  induction l with
  | nil => rfl
  | cons m rest ih =>
    by_cases hm : matchesFilter f m
    · simp [nextMatching, hm] at h
    · simp only [nextMatching, hm, if_false] at h
      simpa [List.filter, hm] using ih h

lemma nextMatching_eq_some {f : StorageFilter}
    {l rest : List SerializedBagMessage} {m : SerializedBagMessage}
    (h : nextMatching f l = some (m, rest)) :
    matchesFilter f m = true ∧ m ∈ l ∧ rest.Sublist l ∧
      rest.length < l.length ∧
      l.filter (matchesFilter f) = m :: rest.filter (matchesFilter f) := by
  induction l with
  | nil => simp [nextMatching] at h
  | cons a tl ih =>
    by_cases ha : matchesFilter f a
    · simp only [nextMatching, ha, if_true, Option.some.injEq, Prod.mk.injEq]
        at h
      obtain ⟨rfl, rfl⟩ := h
      refine ⟨ha, List.mem_cons_self _ _, List.sublist_cons_self _ _, ?_, ?_⟩
      · simp
      · simp [List.filter, ha]
    · simp only [nextMatching, ha, if_false] at h
      obtain ⟨hm, hmem, hsub, hlen, hfil⟩ := ih h
      refine ⟨hm, List.mem_cons_of_mem _ hmem,
        hsub.trans (List.sublist_cons_self _ _), ?_, ?_⟩
      · exact Nat.lt_succ_of_lt hlen
      · simpa [List.filter, ha] using hfil

lemma readNext_topics {s s' : OpenedReader} {m : SerializedBagMessage}
    (h : s.readNext = .ok (m, s')) : s'.topics = s.topics := by
  unfold OpenedReader.readNext at h
  cases hnm : nextMatching s.filter s.remaining with
  | none => simp [hnm] at h
  | some p =>
    simp only [hnm] at h
    cases h
    rfl

lemma readNext_filter {s s' : OpenedReader} {m : SerializedBagMessage}
    (h : s.readNext = .ok (m, s')) : s'.filter = s.filter := by
  unfold OpenedReader.readNext at h
  cases hnm : nextMatching s.filter s.remaining with
  | none => simp [hnm] at h
  | some p =>
    simp only [hnm] at h
    cases h
    rfl

lemma readAllFuel_eq :
    ∀ (n : Nat) (s : OpenedReader), s.remaining.length ≤ n →
      readAllFuel n s = s.remaining.filter (matchesFilter s.filter) := by
  intro n
  induction n with
  | zero =>
    intro s hs
    have : s.remaining = [] := List.length_eq_zero.mp (Nat.le_zero.mp hs)
    simp [readAllFuel, this]
  | succ n ih =>
    intro s hs
    unfold readAllFuel
    cases hr : s.readNext with
    | error e =>
      unfold OpenedReader.readNext at hr
      cases hnm : nextMatching s.filter s.remaining with
      | none => simp [nextMatching_eq_none hnm]
      | some p => simp [hnm] at hr
    | ok p =>
      obtain ⟨m, s'⟩ := p
      unfold OpenedReader.readNext at hr
      cases hnm : nextMatching s.filter s.remaining with
      | none => simp [hnm] at hr
      | some q =>
        obtain ⟨m', rest⟩ := q
        simp only [hnm, Except.ok.injEq, Prod.mk.injEq] at hr
        obtain ⟨rfl, rfl⟩ := hr
        obtain ⟨_, _, _, hlen, hfil⟩ := nextMatching_eq_some hnm
        have hle : rest.length ≤ n :=
          Nat.lt_succ_iff.mp (Nat.lt_of_lt_of_le hlen hs)
        simp only [hfil]
        congr 1
        exact ih { s with remaining := rest } hle

lemma readAll_eq (s : OpenedReader) :
    s.readAll = s.remaining.filter (matchesFilter s.filter) :=
  readAllFuel_eq s.remaining.length s le_rfl

/-! The pybind11 binding layer, embedded from
`src/rosbag2_py/src/rosbag2_py/_reader.cpp` (lines 37-88): the
`rosbag2_py::Reader<T>` template owning a `rosbag2_cpp::Reader` and
forwarding each method, with `read_next` repackaging the record into a
Python 3-tuple. -/

/-- A bound reader: freshly constructed (`Reader()` — underlying reader
allocated but not yet opened) or opened on a bag. -/
inductive PyReader where
  | unopened
  | opened (s : OpenedReader)
deriving DecidableEq, Repr

/-- The Python 3-tuple `(topic_name, serialized bytes, timestamp)` built by
`pybind11::make_tuple` in `Reader::read_next`. -/
structure PyTuple where
  topic_name : String
  payload : List Nat
  time_stamp : Int
deriving DecidableEq, Repr

/-- `Reader::open` (source line 46-51): forwards to the underlying
reader's `open`.  Opening resolves the bag; per the spec's state machine a
second `open` on an already-opened reader is an invalid-state error. -/
def PyReader.openWith (r : PyReader) (bag : Bag) :
    Except ReaderError PyReader :=
  match r with
  | .unopened => .ok (.opened (openReader bag))
  | .opened _ => .error .invalidState

/-- `Reader::has_next` (source line 53-56): forwards to the underlying
reader; an unopened reader has no backend and fails with an invalid-state
error.  The probe does not change the reader. -/
def PyReader.has_next (r : PyReader) :
    Except ReaderError (Bool × PyReader) :=
  match r with
  | .unopened => .error .invalidState
  | .opened s => .ok (s.hasNext, .opened s)

/-- `Reader::read_next` (source line 60-68): pulls the next record from
the underlying reader, copies the first `buffer_length` bytes of its
`serialized_data` buffer into a byte string, and returns the tuple
`(topic_name, bytes, time_stamp)`. -/
def PyReader.read_next (r : PyReader) :
    Except ReaderError (PyTuple × PyReader) :=
  match r with
  | .unopened => .error .invalidState
  | .opened s =>
    match s.readNext with
    | .error e => .error e
    | .ok (next, s') =>
      .ok (⟨next.topic_name, payloadOf next, next.time_stamp⟩, .opened s')

/-- `Reader::get_all_topics_and_types` (source line 71-74): forwards to
the underlying reader, returning the topic index without touching the
iteration state. -/
def PyReader.get_all_topics_and_types (r : PyReader) :
    Except ReaderError (List TopicMetadata × PyReader) :=
  match r with
  | .unopened => .error .invalidState
  | .opened s => .ok (s.getAllTopicsAndTypes, .opened s)

/-- `Reader::set_filter` (source line 76-79): forwards the storage filter
to the underlying reader. -/
def PyReader.set_filter (r : PyReader) (storage_filter : StorageFilter) :
    Except ReaderError PyReader :=
  match r with
  | .unopened => .error .invalidState
  | .opened s => .ok (.opened (s.setFilter storage_filter))

/-- `Reader::reset_filter` (source line 81-84): forwards to the underlying
reader. -/
def PyReader.reset_filter (r : PyReader) : Except ReaderError PyReader :=
  match r with
  | .unopened => .error .invalidState
  | .opened s => .ok (.opened s.resetFilter)

/-! The compression decorator (`rosbag2_compression::
SequentialCompressionReader`), modelled from the spec §4.3/§9: a wrapper
holding an owned inner reader, forwarding every method and intercepting
only the payload-producing one. -/

/-- Modelled from the spec: the decompression codec is an opaque partial
byte transformation — `none` models corrupt or truncated compressed
data. -/
def Codec : Type := List Nat → Option (List Nat)

/-- Modelled from the spec: the decorator state — the codec and the owned
inner sequential reader. -/
structure CompressionReader where
  codec : Codec
  inner : OpenedReader

/-- Modelled from the spec: per-record decompression — a record flagged
compressed has its payload decoded (topic name and timestamp pass through
unchanged); codec failure is a data-corruption error; an uncompressed
record passes through untouched. -/
def decompressMessage (codec : Codec) (m : SerializedBagMessage) :
    Except ReaderError SerializedBagMessage :=
  if m.compressed then
    match codec (payloadOf m) with
    | none => .error .dataCorruption
    | some b =>
      .ok { m with buffer := b, buffer_length := b.length,
                   compressed := false }
  else .ok m

/-- Modelled from the spec: decorator `has_next` forwards to the inner
reader unchanged (§4.3: the decorator must not alter `has_next`
semantics). -/
def CompressionReader.hasNext (c : CompressionReader) : Bool :=
  c.inner.hasNext

/-- Modelled from the spec: decorator `get_all_topics_and_types` forwards
to the inner reader. -/
def CompressionReader.getAllTopicsAndTypes (c : CompressionReader) :
    List TopicMetadata :=
  c.inner.getAllTopicsAndTypes

/-- Modelled from the spec: decorator `set_filter` forwards to the inner
reader. -/
def CompressionReader.setFilter (c : CompressionReader)
    (f : StorageFilter) : CompressionReader :=
  { c with inner := c.inner.setFilter f }

/-- Modelled from the spec: decorator `reset_filter` forwards to the inner
reader. -/
def CompressionReader.resetFilter (c : CompressionReader) :
    CompressionReader :=
  { c with inner := c.inner.resetFilter }

/-- Modelled from the spec: decorator `open` — the same open as the plain
reader, with the codec attached. -/
def openCompressionReader (codec : Codec) (bag : Bag) :
    CompressionReader :=
  ⟨codec, openReader bag⟩

/-- Modelled from the spec: decorator `read_next` — pull the next record
from the inner reader, then decompress it if flagged compressed. -/
def CompressionReader.readNext (c : CompressionReader) :
    Except ReaderError (SerializedBagMessage × CompressionReader) :=
  match c.inner.readNext with
  | .error e => .error e
  | .ok (m, s') =>
    match decompressMessage c.codec m with
    | .error e => .error e
    | .ok m' => .ok (m', { c with inner := s' })

/-- Fuel-indexed full iteration through the decorator. -/
def creadAllFuel : Nat → CompressionReader → List SerializedBagMessage
  | 0, _ => []
  | n + 1, c =>
    match c.readNext with
    | .error _ => []
    | .ok (m, c') => m :: creadAllFuel n c'

/-- Full iteration through the decorator to exhaustion. -/
def CompressionReader.readAll (c : CompressionReader) :
    List SerializedBagMessage :=
  creadAllFuel c.inner.remaining.length c

/-! The plugin registry binding, embedded from the source (lines 90-102):
`get_registered_readers` unions the ReadWrite-capability plugin set with
the ReadOnly-capability plugin set. -/

/-- The plugin environment: the identifier sets advertised under each
capability, as discovered by `rosbag2_cpp::plugins::get_class_plugins`
(modelled as opaque inputs; `std::unordered_set` is a duplicate-free
unordered collection, modelled as `Finset`). -/
structure PluginEnv where
  read_write_plugins : Finset String
  read_only_plugins : Finset String

/-- `get_registered_readers` (source line 90-102): starts from the
ReadWrite plugin set and inserts every ReadOnly plugin into it
(`combined_plugins.insert(read_only_plugins.begin(), ...)`), i.e. the
deduplicated union of the two sets. -/
def get_registered_readers (env : PluginEnv) : Finset String :=
  let combined_plugins := env.read_write_plugins
  let read_only_plugins := env.read_only_plugins
  combined_plugins ∪ read_only_plugins

lemma matchesFilter_mem {f : StorageFilter} {m : SerializedBagMessage}
    (hne : f.topics ≠ []) (h : matchesFilter f m = true) :
    m.topic_name ∈ f.topics := by
  unfold matchesFilter at h
  cases hemp : f.topics.isEmpty with
  | true => exact absurd (List.isEmpty_iff.mp hemp) hne
  | false =>
    rw [hemp, Bool.false_or] at h
    simpa using h

lemma matchesFilter_allpass {f : StorageFilter}
    (he : f.topics = []) (m : SerializedBagMessage) :
    matchesFilter f m = true := by
  simp [matchesFilter, he]

lemma readNext_ok_facts {s s' : OpenedReader} {m : SerializedBagMessage}
    (h : s.readNext = .ok (m, s')) :
    m ∈ s.remaining ∧ s'.remaining.Sublist s.remaining := by
  unfold OpenedReader.readNext at h
  cases hnm : nextMatching s.filter s.remaining with
  | none => simp [hnm] at h
  | some q =>
    obtain ⟨m', rest⟩ := q
    simp only [hnm, Except.ok.injEq, Prod.mk.injEq] at h
    obtain ⟨h1, h2⟩ := h
    subst h1
    subst h2
    obtain ⟨_, hmem, hsub, _, _⟩ := nextMatching_eq_some hnm
    exact ⟨hmem, hsub⟩

/-! Sample data used by witnesses and counterexamples (the two-record log
of the spec's example scenarios, an empty log, and a log whose record
carries an embedded zero byte). -/

/-- Sample record `("cmd", b"\x01\x02", 100)` from the spec's example
scenario 1. -/
def msgCmd : SerializedBagMessage := ⟨"cmd", [1, 2], 2, 100, false⟩

/-- Sample record `("sensor", b"\x10", 150)` from the spec's example
scenario 1. -/
def msgSensor : SerializedBagMessage := ⟨"sensor", [16], 1, 150, false⟩

/-- The two-record sample log of the spec's example scenarios. -/
def sampleBag : Bag :=
  ⟨[⟨"cmd", "std_msgs/msg/ByteMultiArray", "cdr"⟩,
    ⟨"sensor", "std_msgs/msg/ByteMultiArray", "cdr"⟩],
   [msgCmd, msgSensor]⟩

/-- An empty log. -/
def emptyBag : Bag := ⟨[], []⟩

/-- A record whose payload carries an embedded zero byte. -/
def msgZero : SerializedBagMessage := ⟨"zeros", [1, 0, 2], 3, 7, false⟩

/-- A one-record log whose record carries an embedded zero byte. -/
def zeroBag : Bag := ⟨[⟨"zeros", "std_msgs/msg/ByteMultiArray", "cdr"⟩],
  [msgZero]⟩

/-- The sample filter `{"sensor"}` of the spec's example scenario 2. -/
def sensorFilter : StorageFilter := ⟨["sensor"]⟩

/-- The state of a reader after one `read_next` call (unchanged if the
call fails). -/
def afterOne (s : OpenedReader) : OpenedReader :=
  match s.readNext with
  | .error _ => s
  | .ok (_, s') => s'

/-! Claim theorems. -/

/-- C1: for every successful `read_next`, the returned value is exactly
the 3-tuple `(topic_name, payload, timestamp)` of the record produced by
the underlying reader: the payload is the record's raw byte sequence
(the first `buffer_length` bytes of its buffer, as `payloadOf` extracts
them) with no further transformation, and the topic name and timestamp
pass through unmodified. -/
theorem read_next_is_passthrough (s : OpenedReader)
    (m : SerializedBagMessage) (s' : OpenedReader)
    (h : s.readNext = .ok (m, s')) :
    (PyReader.opened s).read_next =
      .ok (⟨m.topic_name, payloadOf m, m.time_stamp⟩, .opened s') := by
  simp [PyReader.read_next, h]

/-- Witness for C1 at the sample log: the underlying reader produces
`msgCmd` and the binding returns its fields verbatim. -/
theorem read_next_is_passthrough_witness :
    (openReader sampleBag).readNext =
      .ok (msgCmd, { openReader sampleBag with remaining := [msgSensor] }) ∧
    (PyReader.opened (openReader sampleBag)).read_next =
      .ok (⟨msgCmd.topic_name, payloadOf msgCmd, msgCmd.time_stamp⟩,
        .opened { openReader sampleBag with remaining := [msgSensor] }) :=
  ⟨rfl, read_next_is_passthrough _ _ _ rfl⟩

/-- C3: for every opened reader in a state where `has_next` reports
false, `read_next` fails with the end-of-stream error (never returning a
sentinel or empty record). -/
theorem read_next_when_exhausted (s : OpenedReader)
    (h : s.hasNext = false) :
    (PyReader.opened s).read_next = .error .endOfStream := by
  unfold OpenedReader.hasNext at h
  cases hnm : nextMatching s.filter s.remaining with
  | none => simp [PyReader.read_next, OpenedReader.readNext, hnm]
  | some p => simp [hnm] at h

/-- Witness for C3 at a reader opened on the empty log. -/
theorem read_next_when_exhausted_witness :
    (openReader emptyBag).hasNext = false ∧
    (PyReader.opened (openReader emptyBag)).read_next =
      .error .endOfStream :=
  ⟨rfl, read_next_when_exhausted _ rfl⟩

/-- Trace of `n` consecutive `has_next` calls, each call feeding its
returned reader to the next. -/
def hasNextTrace : Nat → PyReader → List Bool
  | 0, _ => []
  | n + 1, r =>
    match r.has_next with
    | .error _ => []
    | .ok (b, r') => b :: hasNextTrace n r'

/-- C4: `has_next` is a pure, side-effect-free probe: a successful call
returns the reader unchanged, and every sequence of consecutive
`has_next` calls with no intervening `read_next` returns the same boolean
each time. -/
theorem has_next_is_pure (r : PyReader) (b : Bool) (r' : PyReader)
    (h : r.has_next = .ok (b, r')) :
    r' = r ∧ ∀ n, hasNextTrace n r = List.replicate n b := by
  cases r with
  | unopened => simp [PyReader.has_next] at h
  | opened s =>
    simp only [PyReader.has_next, Except.ok.injEq, Prod.mk.injEq] at h
    obtain ⟨hb, hr⟩ := h
    subst hb
    subst hr
    refine ⟨rfl, ?_⟩
    intro n
    induction n with
    | zero => rfl
    | succ n ih =>
      simp [hasNextTrace, PyReader.has_next, ih, List.replicate]

/-- Witness for C4 at the sample log: three consecutive probes all report
true and do not advance the reader. -/
theorem has_next_is_pure_witness :
    (PyReader.opened (openReader sampleBag)).has_next =
      .ok (true, PyReader.opened (openReader sampleBag)) ∧
    hasNextTrace 3 (PyReader.opened (openReader sampleBag)) =
      List.replicate 3 true :=
  ⟨rfl, (has_next_is_pure (PyReader.opened (openReader sampleBag)) true
    (PyReader.opened (openReader sampleBag)) rfl).2 3⟩

/-- C9: the first `open` on a freshly constructed reader succeeds and
yields an opened reader; `open` on any already-opened reader fails with
the invalid-state error; and every other operation invoked on an
`Unopened` reader fails with the invalid-state error. -/
theorem invalid_state_discipline :
    (∀ bag, PyReader.unopened.openWith bag =
      .ok (.opened (openReader bag))) ∧
    (∀ s bag, (PyReader.opened s).openWith bag = .error .invalidState) ∧
    PyReader.unopened.has_next = .error .invalidState ∧
    PyReader.unopened.read_next = .error .invalidState ∧
    PyReader.unopened.get_all_topics_and_types = .error .invalidState ∧
    (∀ f, PyReader.unopened.set_filter f = .error .invalidState) ∧
    PyReader.unopened.reset_filter = .error .invalidState :=
  ⟨fun _ => rfl, fun _ _ => rfl, rfl, rfl, rfl, fun _ => rfl, rfl⟩

/-- C10: the payload in the tuple returned by `read_next` is built from
exactly the first `buffer_length` bytes of the record's buffer: its
length is `buffer_length` (assuming the rcutils invariant that the length
does not exceed the buffer), each byte — embedded zeros included — equals
the corresponding buffer byte, and a zero-length record yields the empty
payload while topic name and timestamp are returned normally. -/
theorem read_next_payload_bytes (s : OpenedReader)
    (m : SerializedBagMessage) (s' : OpenedReader)
    (h : s.readNext = .ok (m, s'))
    (hlen : m.buffer_length ≤ m.buffer.length) :
    (PyReader.opened s).read_next =
      .ok (⟨m.topic_name, m.buffer.take m.buffer_length, m.time_stamp⟩,
        .opened s') ∧
    (payloadOf m).length = m.buffer_length ∧
    (∀ i, i < m.buffer_length → (payloadOf m)[i]? = m.buffer[i]?) ∧
    (m.buffer_length = 0 → payloadOf m = []) := by
  refine ⟨?_, ?_, ?_, ?_⟩
  · simp [PyReader.read_next, h, payloadOf]
  · simp [payloadOf, List.length_take, Nat.min_eq_left hlen]
  · intro i hi
    simp [payloadOf, List.getElem?_take, hi]
  · intro h0
    simp [payloadOf, h0]

/-- Witness for C10 at the log whose record holds bytes `[1, 0, 2]`: the
payload keeps all three bytes, the embedded zero included. -/
theorem read_next_payload_bytes_witness :
    (openReader zeroBag).readNext =
      .ok (msgZero, { openReader zeroBag with remaining := [] }) ∧
    msgZero.buffer_length ≤ msgZero.buffer.length ∧
    (payloadOf msgZero).length = msgZero.buffer_length ∧
    payloadOf msgZero = [1, 0, 2] :=
  ⟨rfl, by decide,
    (read_next_payload_bytes (openReader zeroBag) msgZero
      { openReader zeroBag with remaining := [] } rfl (by decide)).2.1,
    rfl⟩

/-- C2: `get_registered_readers` returns, for every plugin environment,
exactly the deduplicated union of the backends advertised under the
ReadWrite capability and those advertised under the ReadOnly capability:
an identifier is in the result precisely when it is in either set, and
every member occurs exactly once. -/
theorem get_registered_readers_is_union (env : PluginEnv) (x : String) :
    (x ∈ get_registered_readers env ↔
      x ∈ env.read_write_plugins ∨ x ∈ env.read_only_plugins) ∧
    (get_registered_readers env).val.count x =
      (if x ∈ env.read_write_plugins ∨ x ∈ env.read_only_plugins
        then 1 else 0) := by
  have hmem : x ∈ get_registered_readers env ↔
      x ∈ env.read_write_plugins ∨ x ∈ env.read_only_plugins := by
    simp [get_registered_readers, Finset.mem_union]
  refine ⟨hmem, ?_⟩
  by_cases hx : x ∈ env.read_write_plugins ∨ x ∈ env.read_only_plugins
  · rw [if_pos hx]
    exact Multiset.count_eq_one_of_mem (get_registered_readers env).nodup
      (hmem.mpr hx)
  · rw [if_neg hx]
    exact Multiset.count_eq_zero_of_not_mem
      (fun hc => hx (hmem.mp (Finset.mem_def.mpr hc)))

/-- The topic names yielded by a full iteration of a reader opened on
`bag` with filter `f` installed. -/
def iterTopics (bag : Bag) (f : StorageFilter) : List String :=
  ((openReader bag).setFilter f).readAll.map SerializedBagMessage.topic_name

/-- C5: for every filter and log, a full iteration under the filter
yields only topics from the filter's allowed set when that set is
non-empty (non-matching records are skipped and never returned), and with
the all-pass filter it yields exactly the topics of all records of the
log. -/
theorem filtered_iteration_topics (bag : Bag) (f : StorageFilter) :
    (f.topics ≠ [] → ∀ t ∈ iterTopics bag f, t ∈ f.topics) ∧
    (f.topics = [] →
      iterTopics bag f =
        bag.records.map SerializedBagMessage.topic_name) := by
  constructor
  · intro hne t ht
    unfold iterTopics at ht
    rw [readAll_eq] at ht
    simp only [List.mem_map] at ht
    obtain ⟨m, hm, rfl⟩ := ht
    exact matchesFilter_mem hne (List.of_mem_filter hm)
  · intro he
    unfold iterTopics
    rw [readAll_eq]
    have hall : ((openReader bag).setFilter f).remaining.filter
        (matchesFilter ((openReader bag).setFilter f).filter) =
        bag.records := by
      have : ((openReader bag).setFilter f).filter = f := rfl
      rw [this]
      exact List.filter_eq_self.mpr
        (fun m _ => matchesFilter_allpass he m)
    rw [hall]

/-- Witness for C5 at the spec's example scenario 2: filter `{"sensor"}`
on the two-record log yields only the `sensor` topic, which is in the
allowed set. -/
theorem filtered_iteration_topics_witness :
    sensorFilter.topics ≠ [] ∧
    iterTopics sampleBag sensorFilter = ["sensor"] ∧
    "sensor" ∈ sensorFilter.topics :=
  ⟨by decide, by decide,
    (filtered_iteration_topics sampleBag sensorFilter).1 (by decide)
      "sensor" (by decide)⟩

/-- C6 counterexample: the claim quantifies over every opened reader, but
a reader that has already consumed a record does not rewind on
`reset_filter` — after consuming one record of the sample log,
`reset_filter` followed by full iteration yields one record while a
freshly opened reader on the same log yields two. -/
theorem reset_filter_counterexample :
    (afterOne (openReader sampleBag)).resetFilter.readAll ≠
      (openReader sampleBag).readAll := by decide

/-- C6 amended: `reset_filter` is equivalent to `set_filter` with the
all-pass filter on every opened reader, and for every opened reader that
has not yet consumed any records, `reset_filter` followed by full
iteration yields the same record sequence as a freshly opened reader on
the same log with no filter ever applied. -/
theorem reset_filter_equiv :
    (∀ s : OpenedReader, s.resetFilter = s.setFilter ⟨[]⟩) ∧
    ∀ (tps : List TopicMetadata) (lg : List SerializedBagMessage)
      (f : StorageFilter),
      (OpenedReader.mk tps lg lg f).resetFilter.readAll =
        (openReader ⟨tps, lg⟩).readAll :=
  ⟨fun _ => rfl, fun _ _ _ => rfl⟩

/-- An operation applied to an opened reader between metadata queries:
a read, a filter change, a filter reset, or a probe. -/
inductive ReaderOp where
  | opRead : ReaderOp
  | opSetFilter : StorageFilter → ReaderOp
  | opResetFilter : ReaderOp
  | opHasNext : ReaderOp

/-- State transition of one reader operation (`has_next` leaves the state
unchanged; a failing `read_next` leaves it unchanged as well). -/
def applyOp (s : OpenedReader) : ReaderOp → OpenedReader
  | .opRead => afterOne s
  | .opSetFilter f => s.setFilter f
  | .opResetFilter => s.resetFilter
  | .opHasNext => s

lemma applyOp_topics (s : OpenedReader) (op : ReaderOp) :
    (applyOp s op).topics = s.topics := by
  cases op with
  | opRead =>
    show (afterOne s).topics = s.topics
    unfold afterOne
    cases hr : s.readNext with
    | error e => rfl
    | ok p =>
      obtain ⟨m, s'⟩ := p
      exact readNext_topics hr
  | opSetFilter f => rfl
  | opResetFilter => rfl
  | opHasNext => rfl

/-- C7: `get_all_topics_and_types` returns the same topic sequence no
matter which reads, filter changes, or probes have been applied since
opening, and calling it leaves the reader (iteration position and active
filter) unchanged. -/
theorem get_all_topics_invariant (s : OpenedReader) (ops : List ReaderOp) :
    (ops.foldl applyOp s).getAllTopicsAndTypes = s.getAllTopicsAndTypes ∧
    (PyReader.opened s).get_all_topics_and_types =
      .ok (s.getAllTopicsAndTypes, .opened s) := by
  refine ⟨?_, rfl⟩
  induction ops generalizing s with
  | nil => rfl
  | cons op rest ih =>
    rw [List.foldl_cons, ih (applyOp s op)]
    exact applyOp_topics s op

lemma creadAllFuel_eq :
    ∀ (n : Nat) (c : CompressionReader),
      (∀ m ∈ c.inner.remaining, m.compressed = false) →
      creadAllFuel n c = readAllFuel n c.inner := by
  intro n
  induction n with
  | zero => intro c _; rfl
  | succ n ih =>
    intro c h
    unfold creadAllFuel readAllFuel CompressionReader.readNext
    cases hr : c.inner.readNext with
    | error e => rfl
    | ok p =>
      obtain ⟨m, s'⟩ := p
      obtain ⟨hmem, hsub⟩ := readNext_ok_facts hr
      have hm : m.compressed = false := h m hmem
      have hdec : decompressMessage c.codec m = .ok m := by
        unfold decompressMessage
        rw [hm]
        rfl
      simp only [hdec]
      have hsubh : ∀ m' ∈ s'.remaining, m'.compressed = false :=
        fun m' hm' => h m' (hsub.subset hm')
      have := ih { c with inner := s' } hsubh
      simp only [this]

/-- C8: the compression-decorating reader exposes every plain-reader
operation with identical semantics — `has_next`,
`get_all_topics_and_types`, `set_filter`, `reset_filter` and `open`
forward to the inner reader unchanged — and over a log containing no
compressed records its full iteration is identical, record for record, to
the plain reader's. -/
theorem compression_reader_refines (c : CompressionReader) :
    c.hasNext = c.inner.hasNext ∧
    c.getAllTopicsAndTypes = c.inner.getAllTopicsAndTypes ∧
    (∀ f, (c.setFilter f).inner = c.inner.setFilter f) ∧
    c.resetFilter.inner = c.inner.resetFilter ∧
    (∀ codec bag, (openCompressionReader codec bag).inner =
      openReader bag) ∧
    ((∀ m ∈ c.inner.remaining, m.compressed = false) →
      c.readAll = c.inner.readAll) :=
  ⟨rfl, rfl, fun _ => rfl, rfl, fun _ _ => rfl,
    fun h => creadAllFuel_eq c.inner.remaining.length c h⟩

/-- The identity codec (every payload decodes to itself), used by the C8
witness. -/
def idCodec : Codec := fun b => some b

/-- Witness for C8 at the sample log (no compressed records) behind the
identity codec: the decorated iteration equals the plain iteration. -/
theorem compression_reader_refines_witness :
    (openCompressionReader idCodec sampleBag).readAll =
      (openCompressionReader idCodec sampleBag).inner.readAll :=
  (compression_reader_refines
    (openCompressionReader idCodec sampleBag)).2.2.2.2.2 (by decide)

end Rosbag2Py
